import Mathlib

/-!
Verification of the clinical-driftops-platform drift-detection and
policy-gate engine.

The development shallowly embeds the repository's Python code:

* IEEE-754 double values are modelled by `PyF` (a finite rational, NaN,
  or a signed infinity); rational arithmetic is exact, so float rounding
  is not modelled, but NaN/infinity propagation is.
* `np.log` is transcendental and has no computable rational counterpart,
  so every definition that needs it takes an explicit `logF : ℚ → PyF`
  argument standing for the float logarithm of a positive rational; no
  property of `logF` is assumed, which keeps the non-finite guards in
  the source live.
* File I/O becomes explicit parameters: a parsed-artifact value is
  `Option`-wrapped (`none` = the file is absent or unparseable, exactly
  the cases where the source's `_load_json` falls back to its default).
* A pandas DataFrame is a list of named columns (`Col`), each carrying
  its dtype's numeric flag and its data as a list of `PyF` values.
-/

namespace DriftOps

/-! ## Python float values -/

/-- A Python/NumPy double: a finite rational, NaN, or a signed infinity. -/
inductive PyF where
  | fin (q : ℚ)
  | nan
  | inf
  | ninf
deriving DecidableEq, Repr, Inhabited

def PyF.isFinite : PyF → Bool
  | .fin _ => true
  | _ => false

/-- The `np.isfinite` guard turned into an `Option`: the rational payload of a
finite value, `none` for NaN and the infinities (models storing `np.nan`). -/
def PyF.toQopt : PyF → Option ℚ
  | .fin q => some q
  | _ => none

/-- IEEE addition on `PyF` (exact rational arithmetic on finite values). -/
def pyAdd : PyF → PyF → PyF
  | .nan, _ => .nan
  | _, .nan => .nan
  | .inf, .ninf => .nan
  | .ninf, .inf => .nan
  | .inf, _ => .inf
  | _, .inf => .inf
  | .ninf, _ => .ninf
  | _, .ninf => .ninf
  | .fin a, .fin b => .fin (a + b)

/-- IEEE multiplication on `PyF` (exact rational arithmetic on finite values;
`0 * ±inf = nan`). -/
def pyMul : PyF → PyF → PyF
  | .nan, _ => .nan
  | _, .nan => .nan
  | .fin a, .fin b => .fin (a * b)
  | .inf, .inf => .inf
  | .inf, .ninf => .ninf
  | .ninf, .inf => .ninf
  | .ninf, .ninf => .inf
  | .fin a, .inf => if a = 0 then .nan else if 0 < a then .inf else .ninf
  | .fin a, .ninf => if a = 0 then .nan else if 0 < a then .ninf else .inf
  | .inf, .fin b => if b = 0 then .nan else if 0 < b then .inf else .ninf
  | .ninf, .fin b => if b = 0 then .nan else if 0 < b then .ninf else .inf

/-- Models `np.sum` over a float array, modelled as a sequential fold from `0.0`. -/
def pySum (l : List PyF) : PyF := l.foldl pyAdd (.fin 0)

/-- Python `x >= t` where `x` may be NaN or infinite (NaN compares `False`). -/
def pyGe (x : PyF) (t : ℚ) : Bool :=
  match x with
  | .fin q => decide (t ≤ q)
  | .inf => true
  | _ => false

/-- Models `x[np.isfinite(x)]`: keep the finite entries of a float array. -/
def toFinite (l : List PyF) : List ℚ := l.filterMap PyF.toQopt

/-! ## Sorting and Python strings -/

/-- Insert `x` into an already sorted list, before the first element `y`
with `le x y` — for a total preorder `le` this puts `x` after every earlier
element with an equal key, which is what a stable sort needs. -/
def pyInsert (le : α → α → Bool) (x : α) : List α → List α
  | [] => [x]
  | y :: ys => if le x y then x :: y :: ys else y :: pyInsert le x ys

/-- A stable insertion sort, modelling Python's stable `sorted` and NumPy's
`np.sort` on the keys the source sorts by. -/
def pySorted (le : α → α → Bool) : List α → List α
  | [] => []
  | x :: xs => pyInsert le x (pySorted le xs)

/-- A Python `str`, modelled as its character list. -/
abbrev PyStr := List Char

/-- Models `s.lower()`. -/
def pyLower (s : PyStr) : PyStr := s.map Char.toLower

/-- Models `s.endswith(suf)`. -/
def pyEndsWith (s suf : PyStr) : Bool := List.isSuffixOf suf s

/-- Python `pat in s` substring containment. -/
def pyContains (pat : PyStr) : PyStr → Bool
  | [] => pat.isEmpty
  | c :: rest => pat.isPrefixOf (c :: rest) || pyContains pat rest

/-! ## NumPy helpers on exact rationals -/

/-- Models `np.nanpercentile(xs, q)` with the default linear interpolation, on an
array that is already free of NaNs (the source filters first). Returns `0`
on an empty array (that case is unreachable in the source's call sites). -/
def percentile (xs : List ℚ) (q : ℚ) : ℚ :=
  let ys := pySorted (fun a b => decide (a ≤ b)) xs
  if ys.length = 0 then 0
  else
    let h : ℚ := q / 100 * ((ys.length : ℚ) - 1)
    let lo : ℕ := h.floor.toNat
    let g : ℚ := h - (lo : ℚ)
    let vlo := ys.getD lo 0
    let vhi := ys.getD (min (lo + 1) (ys.length - 1)) 0
    vlo + g * (vhi - vlo)

/-- Models `np.linspace a b num`: `num` evenly spaced points from `a` to `b`. -/
def linspace (a b : ℚ) (num : ℕ) : List ℚ :=
  if num = 0 then []
  else if num = 1 then [a]
  else (List.range num).map (fun i => a + (i : ℚ) * (b - a) / ((num : ℚ) - 1))

/-- One bin count of `np.histogram(data, cuts)`: half-open bins, the
last bin closed on the right; values outside the edges are not counted. -/
def histBinCount (cuts : List ℚ) (i : ℕ) (data : List ℚ) : ℕ :=
  let lo := cuts.getD i 0
  let hi := cuts.getD (i + 1) 0
  if i + 2 = cuts.length then
    data.countP (fun v => decide (lo ≤ v) && decide (v ≤ hi))
  else
    data.countP (fun v => decide (lo ≤ v) && decide (v < hi))

/-- Models the `np.histogram(data, cuts)` bin counts. -/
def histogram (cuts : List ℚ) (data : List ℚ) : List ℕ :=
  (List.range (cuts.length - 1)).map (fun i => histBinCount cuts i data)

/-- Models `np.clip(x, lo, hi)`. -/
def clip (x lo hi : ℚ) : ℚ := min (max x lo) hi

/-! ## PSI (monitors/drift_detector.py `_psi`, identical to the gate shim's) -/

/-- The binned PSI statistic of `_psi` after the empty-sample guard: bin edges
from the 1st/99th percentile of `expected`, histogram proportions clipped to
`[1e-6, 1]`, then `Σ (a - e) * log (a / e)` as float arithmetic. -/
def psiCore (logF : ℚ → PyF) (expected actual : List ℚ) (bins : ℕ) : PyF :=
  let cuts := linspace (percentile expected 1) (percentile expected 99) (bins + 1)
  let e_hist := histogram cuts expected
  let a_hist := histogram cuts actual
  let e_ratio := e_hist.map (fun h => clip ((h : ℚ) / ((max e_hist.sum 1 : ℕ) : ℚ)) (1 / 1000000) 1)
  let a_ratio := a_hist.map (fun h => clip ((h : ℚ) / ((max a_hist.sum 1 : ℕ) : ℚ)) (1 / 1000000) 1)
  pySum ((a_ratio.zip e_ratio).map (fun p => pyMul (.fin (p.1 - p.2)) (logF (p.1 / p.2))))

/-- Models `_psi(expected, actual, bins)` from monitors/drift_detector.py: filter to
finite values, return `0.0` if either side is then empty, else the PSI
statistic, with a final `float(psi) if np.isfinite(psi) else 0.0` guard. -/
def _psi (logF : ℚ → PyF) (expectedRaw actualRaw : List PyF) (bins : ℕ) : PyF :=
  let expected := toFinite expectedRaw
  let actual := toFinite actualRaw
  if expected.length = 0 ∨ actual.length = 0 then .fin 0
  else
    let psi := psiCore logF expected actual bins
    if psi.isFinite then psi else .fin 0

/-! ## Two-sample KS statistics -/

/-- Empirical CDF of a sample at `v`. -/
def ecdfLe (xs : List ℚ) (v : ℚ) : ℚ :=
  ((xs.countP (fun x => decide (x ≤ v)) : ℕ) : ℚ) / (xs.length : ℚ)

/-- The exact two-sample Kolmogorov–Smirnov statistic (what
`scipy.stats.ks_2samp(...).statistic` computes): the maximum absolute ECDF
difference over all data points. -/
def ksStat2 (b a : List ℚ) : ℚ :=
  ((b ++ a).map (fun v => |ecdfLe b v - ecdfLe a v|)).foldl max 0

/-- Models `ks_2samp` as used by the source: it raises on an empty sample, which
every caller catches and converts to `np.nan`, so the embedded value is
NaN there; otherwise the exact statistic. -/
def ks_2samp (b a : List ℚ) : PyF :=
  if b.length = 0 ∨ a.length = 0 then .nan else .fin (ksStat2 b a)

/-- The count sweep of the ROC-style KS statistic (src/eval/performance_metrics.py): walk the
score-sorted pairs, tracking the true-positive and false-positive counts and
the running maximum of `|tp/n1 - fp/n0|`. -/
def ksSweep (n1 n0 : ℕ) (tp fp : ℕ) (md : ℚ) : List (ℚ × ℤ) → ℚ
  | [] => md
  | p :: rest =>
    let tp2 := if p.2 = 1 then tp + 1 else tp
    let fp2 := if p.2 = 1 then fp else fp + 1
    let d := |((tp2 : ℚ) / (n1 : ℚ)) - ((fp2 : ℚ) / (n0 : ℚ))|
    ksSweep n1 n0 tp2 fp2 (max md d) rest

/-- Models `_ks_stat(y_true, y_score)` from src/eval/performance_metrics.py: sort
`zip(y_score, y_true)` by score (stably, as Python's `sorted`), return `None`
when there are no pairs or when either class sample is empty, else the
ROC-sweep KS statistic. -/
def _ks_stat (y_true : List ℤ) (y_score : List ℚ) : Option ℚ :=
  let pairs := pySorted (fun x y => decide (x.1 ≤ y.1)) (y_score.zip y_true)
  if pairs.length = 0 then none
  else
    let n1 := pairs.countP (fun p => decide (p.2 = 1))
    let n0 := pairs.length - n1
    if n1 = 0 ∨ n0 = 0 then none
    else some (ksSweep n1 n0 0 0 0 pairs)

/-! ## DataFrames, feature selection and drift comparison
(monitors/drift_detector.py) -/

/-- One DataFrame column: its name, whether its dtype is numeric
(`pd.api.types.is_numeric_dtype`), and its values after
`pd.to_numeric(..., errors="coerce")`. -/
structure Col where
  name : PyStr
  numeric : Bool
  data : List PyF
deriving DecidableEq, Repr

/-- Models `looks_like_id_or_time(c)`: the column name, lowercased, ends with
`_id` or contains `time` or `date`. -/
def looks_like_id_or_time (c : PyStr) : Bool :=
  let cl := pyLower c
  pyEndsWith cl "_id".data || pyContains "time".data cl || pyContains "date".data cl

/-- The column-selection loop of `compare_dataframes`, translated
continue-by-continue: `ign` is the already-lowercased ignore set. -/
def selectLoop (current : List Col) (ign : List PyStr) : List Col → List PyStr
  | [] => []
  | c :: rest =>
    if (current.find? (fun d => d.name == c.name)).isNone then
      selectLoop current ign rest
    else if looks_like_id_or_time c.name || ign.contains (pyLower c.name) then
      selectLoop current ign rest
    else if c.numeric && (((current.find? (fun d => d.name == c.name)).map Col.numeric).getD false) then
      c.name :: selectLoop current ign rest
    else
      selectLoop current ign rest

/-- The selected column names of `compare_dataframes(baseline, current,
ignore_cols)` in monitors/drift_detector.py. -/
def selectCols (baseline current : List Col) (ignore_cols : List PyStr) : List PyStr :=
  selectLoop current (ignore_cols.map pyLower) baseline

/-- Declarative qualification predicate, written from the specification: the
column is present in both datasets, is not in the case-insensitive ignore
set, does not case-insensitively end with `_id` or contain `time` or `date`,
and is numeric-typed in both datasets. -/
def qualifies (current : List Col) (ignore_cols : List PyStr) (c : Col) : Bool :=
  match current.find? (fun d => d.name == c.name) with
  | none => false
  | some d =>
    !((ignore_cols.map pyLower).contains (pyLower c.name)) &&
    !(pyEndsWith (pyLower c.name) "_id".data) &&
    !(pyContains "time".data (pyLower c.name)) &&
    !(pyContains "date".data (pyLower c.name)) &&
    c.numeric && d.numeric

/-- One row of the drift table: `{feature, psi, ks, drift_flag}`; a stored
`np.nan` statistic is modelled as `none`. -/
structure FRow where
  feature : PyStr
  psi : Option ℚ
  ks : Option ℚ
  drift_flag : Bool
deriving DecidableEq, Repr

/-- Models `compare_dataframes` (monitors/drift_detector.py): per selected column,
filter both sides to finite values, skip the column if either side is then
empty, compute PSI and the KS statistic, flag drift at the fixed `0.10`
per-feature threshold, and store non-finite statistics as NaN. -/
def compare_dataframes (logF : ℚ → PyF) (baseline current : List Col)
    (ignore_cols : List PyStr) : List FRow :=
  (selectCols baseline current ignore_cols).filterMap (fun nm =>
    match baseline.find? (fun d => d.name == nm), current.find? (fun d => d.name == nm) with
    | some cb, some cc =>
      let b := toFinite cb.data
      let a := toFinite cc.data
      if b.length = 0 ∨ a.length = 0 then none
      else
        let psi := _psi logF cb.data cc.data 10
        let ks := ks_2samp b a
        let flag := pyGe psi (1 / 10) || pyGe ks (1 / 10)
        some ⟨nm, psi.toQopt, ks.toQopt, flag⟩
    | _, _ => none)

/-- Models `DriftSummary.max_psi`: `None` for an empty table, else the pandas
`max` of the psi column, which skips NaN entries and yields `None` when
every entry is NaN. -/
def DriftSummary.max_psi (rows : List FRow) : Option ℚ :=
  if rows.isEmpty then none else (rows.filterMap FRow.psi).max?

/-- Models `DriftSummary.max_ks`, same shape as `DriftSummary.max_psi`. -/
def DriftSummary.max_ks (rows : List FRow) : Option ℚ :=
  if rows.isEmpty then none else (rows.filterMap FRow.ks).max?

/-! ## The policy gate (the `policy_gate.py` written by src/conftest.py) -/

/-- A value a gate check compares: a float or a bool.  Python compares
booleans as the integers 0/1, which `Val.toQ` reflects. -/
inductive Val where
  | num (q : ℚ)
  | vbool (b : Bool)
deriving DecidableEq, Repr

def Val.toQ : Val → ℚ
  | .num q => q
  | .vbool b => if b then 1 else 0

/-- The four comparison operators a check can carry. -/
inductive CheckOp where
  | lt
  | le
  | ge
  | eq
deriving DecidableEq, Repr

/-- A check outcome. -/
inductive CheckRes where
  | PASS
  | FAIL
  | SKIP
deriving DecidableEq, Repr

/-- Overall gate status. -/
inductive GStatus where
  | PASS
  | FAIL
deriving DecidableEq, Repr

/-- One `CheckResult` record of the gate report. -/
structure CheckResult where
  name : String
  value : Option Val
  op : CheckOp
  threshold : Val
  result : CheckRes
deriving DecidableEq, Repr

/-- The operator dispatch of `_check` (Python comparison semantics). -/
def opHolds : CheckOp → Val → Val → Bool
  | .lt, v, t => decide (v.toQ < t.toQ)
  | .le, v, t => decide (v.toQ ≤ t.toQ)
  | .ge, v, t => decide (t.toQ ≤ v.toQ)
  | .eq, v, t => decide (v.toQ = t.toQ)

/-- Models `_check(name, value, op, thr)`: SKIP on a `None` value, else PASS/FAIL
by applying the operator. -/
def _check (nm : String) (value : Option Val) (op : CheckOp) (thr : Val) : CheckResult :=
  match value with
  | none => ⟨nm, none, op, thr, .SKIP⟩
  | some v => ⟨nm, some v, op, thr, if opHolds op v thr then .PASS else .FAIL⟩

/-- The parsed `policy.yaml` thresholds the gate reads; `none` = the key is
absent and the hardcoded default applies. -/
structure Policy where
  psi_fail : Option ℚ
  ks_fail : Option ℚ
  ignore_cols : List PyStr
  min_auroc : Option ℚ
  min_auprc : Option ℚ
  parity_gap_fail : Option ℚ
  require_shap_artifact : Option Bool
  top_features_min : Option ℤ
deriving DecidableEq, Repr

/-- The all-default policy (`yaml` file absent ⇒ empty dict). -/
def emptyPolicy : Policy := ⟨none, none, [], none, none, none, none, none⟩

/-- Parsed `performance_metrics.json` content after `_safe_float`: `none` =
key absent or not floatable. -/
structure PerfDict where
  auroc : Option ℚ
  auprc : Option ℚ
  log_loss : Option ℚ
deriving DecidableEq, Repr

def PerfDict.empty : PerfDict := ⟨none, none, none⟩

/-- Parsed `shap_top_features.json` content: which keys are present, and the
integer value of `n_top_features` when that key holds a number. -/
structure ShapDict where
  hasNTopKey : Bool
  nTopNum : Option ℤ
  hasFeaturesKey : Bool
  hasOtherKeys : Bool
deriving DecidableEq, Repr

def ShapDict.empty : ShapDict := ⟨false, none, false, false⟩

/-- Parsed `fairness_summary.json` content. -/
structure FairDict where
  parity_gap : Option ℚ
deriving DecidableEq, Repr

def FairDict.empty : FairDict := ⟨none⟩

/-- The normalized observed-metrics record the gate builds. -/
structure Observed where
  max_psi : Option ℚ
  max_ks : Option ℚ
  auroc : Option ℚ
  auprc : Option ℚ
  log_loss : Option ℚ
  parity_gap : Option ℚ
  shap_artifact_present : Bool
  top_features_detected : Option ℤ
deriving DecidableEq, Repr

/-- Models `bool(shap)`: a dict is truthy iff it has at least one key. -/
def shapNonempty (s : ShapDict) : Bool :=
  s.hasNTopKey || s.hasFeaturesKey || s.hasOtherKeys

/-- Models `_observed(policy)` with its file reads made explicit: merge the drift
aggregates with the parsed artifacts.  `shap_artifact_present` is
`bool(shap and ("n_top_features" in shap or "features" in shap))` — always a
bool, never `None`. -/
def _observed (perf : PerfDict) (shap : ShapDict) (fair : FairDict)
    (drift : Option ℚ × Option ℚ) : Observed :=
  ⟨drift.1, drift.2, perf.auroc, perf.auprc, perf.log_loss, fair.parity_gap,
   shapNonempty shap && (shap.hasNTopKey || shap.hasFeaturesKey),
   shap.nTopNum⟩

/-- The label-ish columns `_drift_summary` always ignores. -/
def autoIgnore : List PyStr := ["label".data, "y_true".data, "y_pred".data, "y_score".data]

/-- The column-selection filter of the gate's `_drift_summary` (same naming
heuristic as `compare_dataframes`, plus the automatic label ignore set). -/
def shimSelect (ign : List PyStr) (base curr : List Col) : List Col :=
  base.filter (fun c =>
    match curr.find? (fun d => d.name == c.name) with
    | none => false
    | some d =>
      !(looks_like_id_or_time c.name) &&
      !((ign.map pyLower).contains (pyLower c.name)) &&
      !(autoIgnore.contains (pyLower c.name)) &&
      c.numeric && d.numeric)

/-- Models `_drift_summary(policy)` of the gate shim, with the two CSV reads made
explicit (`none` = either file is absent): select columns, skip any with an
empty finite-filtered side, collect the finite PSI and KS values, and return
their maxima (`np.nanmax` over a non-empty list, else `None`). -/
def _drift_summary (logF : ℚ → PyF) (policy : Policy)
    (dataFiles : Option (List Col × List Col)) : Option ℚ × Option ℚ :=
  match dataFiles with
  | none => (none, none)
  | some (base, curr) =>
    let cols := shimSelect policy.ignore_cols base curr
    if cols.isEmpty then (none, none)
    else
      let stats := cols.filterMap (fun c =>
        (curr.find? (fun d => d.name == c.name)).bind (fun d =>
          let xb := toFinite c.data
          let xa := toFinite d.data
          if xb.length = 0 ∨ xa.length = 0 then none
          else some (_psi logF c.data d.data 10, ks_2samp xb xa)))
      ((stats.filterMap (fun p => p.1.toQopt)).max?,
       (stats.filterMap (fun p => p.2.toQopt)).max?)

/-- The gate's fixed check list, in the order `main` appends them, each
threshold taken from the policy when present and from the hardcoded default
otherwise. -/
def gateChecks (policy : Policy) (obs : Observed) : List CheckResult :=
  [_check "drift.psi" (obs.max_psi.map Val.num) .lt (Val.num (policy.psi_fail.getD 0.2)),
   _check "drift.ks" (obs.max_ks.map Val.num) .lt (Val.num (policy.ks_fail.getD 0.2)),
   _check "performance.auroc" (obs.auroc.map Val.num) .ge (Val.num (policy.min_auroc.getD 0.75)),
   _check "performance.auprc" (obs.auprc.map Val.num) .ge (Val.num (policy.min_auprc.getD 0.2)),
   _check "fairness.parity_gap" (obs.parity_gap.map Val.num) .le (Val.num (policy.parity_gap_fail.getD 0.05)),
   _check "explainability.shap_artifact_present" (some (Val.vbool obs.shap_artifact_present)) .eq
     (Val.vbool (policy.require_shap_artifact.getD true)),
   _check "explainability.top_features_min" (obs.top_features_detected.map (fun i => Val.num (i : ℚ))) .ge
     (Val.num ((policy.top_features_min.getD 2 : ℤ) : ℚ))]

/-- The status loop of `main`: start at PASS, set FAIL and break at the
first failing check. -/
def overallStatus : List CheckResult → GStatus
  | [] => .PASS
  | c :: rest => if c.result = .FAIL then .FAIL else overallStatus rest

/-- The `policy.yaml` read: absent (empty policy), malformed
(`yaml.safe_load` raises), or parsed. -/
inductive PolicyFile where
  | absent
  | malformed
  | parsed (p : Policy)
deriving DecidableEq, Repr

/-- What one gate run produces. -/
structure GateRun where
  observed : Observed
  checks : List CheckResult
  status : GStatus
  exitCode : ℤ
deriving DecidableEq, Repr

/-- Models `main()` of the gate with its file reads made explicit.  A malformed
policy file makes `yaml.safe_load` raise, so `main` propagates the exception
(`Except.error`) before producing any verdict; otherwise it builds the
observed record, the seven checks, the overall status, and returns
`0 if status == "PASS" else 1`. -/
def gateMain (logF : ℚ → PyF) (policyFile : PolicyFile)
    (perfFile : Option PerfDict) (shapFile : Option ShapDict) (fairFile : Option FairDict)
    (dataFiles : Option (List Col × List Col)) : Except Unit GateRun :=
  match policyFile with
  | .malformed => .error ()
  | .absent => gateRun logF emptyPolicy perfFile shapFile fairFile dataFiles
  | .parsed p => gateRun logF p perfFile shapFile fairFile dataFiles
where
  gateRun (logF : ℚ → PyF) (policy : Policy) (perfFile : Option PerfDict)
      (shapFile : Option ShapDict) (fairFile : Option FairDict)
      (dataFiles : Option (List Col × List Col)) : Except Unit GateRun :=
    let drift := _drift_summary logF policy dataFiles
    let obs := _observed (perfFile.getD PerfDict.empty) (shapFile.getD ShapDict.empty)
      (fairFile.getD FairDict.empty) drift
    let checks := gateChecks policy obs
    let status := overallStatus checks
    .ok ⟨obs, checks, status, if status = .PASS then 0 else 1⟩

/-- The process-level exit indicator of `python policy_gate.py`: the value of
`raise SystemExit(main())` when `main` returns, and CPython's
unhandled-exception exit status 1 when `main` raises. -/
def processExit (r : Except Unit GateRun) : ℤ :=
  match r with
  | .ok run => run.exitCode
  | .error _ => 1

/-- Placeholder check used as the `List.getD` default when indexing a check
list. -/
def defaultCheck : CheckResult := ⟨"", none, .lt, .num 0, .SKIP⟩

/-! ## Helper lemmas -/

theorem check_name (nm : String) (v : Option Val) (op : CheckOp) (t : Val) :
    (_check nm v op t).name = nm := by cases v <;> rfl

theorem check_value (nm : String) (v : Option Val) (op : CheckOp) (t : Val) :
    (_check nm v op t).value = v := by cases v <;> rfl

theorem check_op (nm : String) (v : Option Val) (op : CheckOp) (t : Val) :
    (_check nm v op t).op = op := by cases v <;> rfl

theorem check_threshold (nm : String) (v : Option Val) (op : CheckOp) (t : Val) :
    (_check nm v op t).threshold = t := by cases v <;> rfl

theorem overall_fail_iff (checks : List CheckResult) :
    overallStatus checks = .FAIL ↔ ∃ c ∈ checks, c.result = .FAIL := by
  induction checks with
  | nil => simp [overallStatus]
  | cons c rest ih =>
    by_cases h : c.result = .FAIL
    · simp [overallStatus, h]
    · simp [overallStatus, h, ih]

theorem check_some_ne_skip (nm : String) (v : Val) (op : CheckOp) (t : Val) :
    (_check nm (some v) op t).result ≠ .SKIP := by
  simp only [_check]
  split <;> simp

theorem psi_isFinite (logF : ℚ → PyF) (e a : List PyF) (bins : ℕ) :
    (_psi logF e a bins).isFinite = true := by
  unfold _psi
  dsimp only
  split
  · rfl
  · split
    · assumption
    · rfl

/-! ## Claims -/

/-- C1: a gate check's result is SKIP exactly when its observed value is
null; otherwise it is PASS exactly when the operator holds on
(value, threshold) and FAIL otherwise; and the overall gate status is FAIL
exactly when some check's result is FAIL, so a SKIP check never causes an
overall FAIL. -/
theorem check_semantics_and_overall (nm : String) (value : Option Val) (op : CheckOp)
    (thr : Val) (checks : List CheckResult) :
    ((_check nm value op thr).result = .SKIP ↔ value = none)
    ∧ (∀ v, value = some v →
        (_check nm value op thr).result = (if opHolds op v thr then .PASS else .FAIL))
    ∧ (overallStatus checks = .FAIL ↔ ∃ c ∈ checks, c.result = .FAIL) := by
  refine ⟨?_, ?_, overall_fail_iff checks⟩
  · cases value with
    | none => simp [_check]
    | some v =>
      simp only [_check]
      constructor
      · intro h
        split at h <;> simp_all
      · intro h
        simp at h
  · intro v hv
    subst hv
    rfl

theorem check_semantics_and_overall_witness :
    (_check "performance.auroc" (some (Val.num (1/2))) .ge (Val.num (3/4))).result
      = (if opHolds .ge (Val.num (1/2)) (Val.num (3/4)) then .PASS else .FAIL) :=
  (check_semantics_and_overall "performance.auroc" (some (Val.num (1/2))) .ge
    (Val.num (3/4)) []).2.1 (Val.num (1/2)) rfl

/-- C2: for every policy and observed record the gate evaluates exactly seven
checks, in the fixed order drift.psi, drift.ks, performance.auroc,
performance.auprc, fairness.parity_gap, explainability.shap_artifact_present,
explainability.top_features_min, with the stated operators and observed
fields, each threshold coming from the policy's nested config when present
and from the defaults 0.20, 0.20, 0.75, 0.20, 0.05, true, 2 when absent. -/
theorem gate_checks_fixed_order (policy : Policy) (obs : Observed) :
    (gateChecks policy obs).map (fun c => (c.name, c.value, c.op, c.threshold)) =
      [("drift.psi", obs.max_psi.map Val.num, .lt, Val.num (policy.psi_fail.getD 0.2)),
       ("drift.ks", obs.max_ks.map Val.num, .lt, Val.num (policy.ks_fail.getD 0.2)),
       ("performance.auroc", obs.auroc.map Val.num, .ge, Val.num (policy.min_auroc.getD 0.75)),
       ("performance.auprc", obs.auprc.map Val.num, .ge, Val.num (policy.min_auprc.getD 0.2)),
       ("fairness.parity_gap", obs.parity_gap.map Val.num, .le, Val.num (policy.parity_gap_fail.getD 0.05)),
       ("explainability.shap_artifact_present", some (Val.vbool obs.shap_artifact_present), .eq,
        Val.vbool (policy.require_shap_artifact.getD true)),
       ("explainability.top_features_min", obs.top_features_detected.map (fun i => Val.num (i : ℚ)), .ge,
        Val.num ((policy.top_features_min.getD 2 : ℤ) : ℚ))] := by
  simp [gateChecks, check_name, check_value, check_op, check_threshold]

/-- C3 counterexample: when every upstream artifact is absent the gate does
NOT produce all-SKIP checks with overall PASS — the run evaluates to status
FAIL with the explainability.shap_artifact_present check FAILing. -/
theorem gate_all_absent_not_all_skip_pass :
    ¬ ((gateMain (fun _ => PyF.nan) .absent none none none none).map
        (fun r => (r.status, r.checks.map CheckResult.result)) =
      .ok (.PASS, List.replicate 7 .SKIP)) := by
  rw [show (gateMain (fun _ => PyF.nan) .absent none none none none).map
        (fun r => (r.status, r.checks.map CheckResult.result)) =
      .ok (.FAIL, [.SKIP, .SKIP, .SKIP, .SKIP, .SKIP, .FAIL, .SKIP]) from rfl]
  simp

/-- C3 amended: if every upstream artifact is absent the gate still produces
a complete policy_gate_result record, with every nullable observed field
null; but `shap_artifact_present` is the boolean false rather than null, so
six checks are SKIP while explainability.shap_artifact_present FAILs under
the default `require_shap_artifact = true`, and the overall status is FAIL
with exit code 1. -/
theorem gate_all_absent_record (logF : ℚ → PyF) :
    (gateMain logF .absent none none none none).map
      (fun r => (r.observed, r.checks.map (fun c => (c.name, c.result)), r.status, r.exitCode)) =
    .ok (⟨none, none, none, none, none, none, false, none⟩,
         [("drift.psi", .SKIP), ("drift.ks", .SKIP), ("performance.auroc", .SKIP),
          ("performance.auprc", .SKIP), ("fairness.parity_gap", .SKIP),
          ("explainability.shap_artifact_present", .FAIL),
          ("explainability.top_features_min", .SKIP)],
         .FAIL, 1) := rfl

/-- C10: the observed `shap_artifact_present` field is always a boolean, so
the explainability.shap_artifact_present check never yields SKIP; and when
the SHAP artifact is absent or unparseable the observed value is false,
which under the default threshold `require_shap_artifact = true` makes that
check's result FAIL rather than SKIP. -/
theorem shap_check_never_skip (p : Policy) (perf : PerfDict) (shap : ShapDict)
    (fair : FairDict) (drift : Option ℚ × Option ℚ) :
    ((gateChecks p (_observed perf shap fair drift)).getD 5 defaultCheck).result ≠ .SKIP
    ∧ (_observed perf ShapDict.empty fair drift).shap_artifact_present = false
    ∧ ((gateChecks
          ⟨p.psi_fail, p.ks_fail, p.ignore_cols, p.min_auroc, p.min_auprc,
           p.parity_gap_fail, none, p.top_features_min⟩
          (_observed perf ShapDict.empty fair drift)).getD 5 defaultCheck).result = .FAIL := by
  refine ⟨?_, rfl, ?_⟩
  · exact check_some_ne_skip _ _ _ _
  · rfl

theorem shap_check_never_skip_witness :
    (_observed PerfDict.empty ShapDict.empty FairDict.empty (none, none)).shap_artifact_present
      = false :=
  (shap_check_never_skip emptyPolicy PerfDict.empty ShapDict.empty FairDict.empty
    (none, none)).2.1

/-- C9 counterexample: with a malformed policy configuration the gate
process exits with code 1 — the same code as a FAIL verdict, not a distinct
non-gate exit code. -/
theorem malformed_policy_exit_is_one :
    processExit (gateMain (fun _ => PyF.nan) .malformed none none none none) = 1
    ∧ ¬ (processExit (gateMain (fun _ => PyF.nan) .malformed none none none none) ≠ 0
         ∧ processExit (gateMain (fun _ => PyF.nan) .malformed none none none none) ≠ 1) := by
  decide

theorem gateMain_ok_exit (logF : ℚ → PyF) (pf : PolicyFile) (perf : Option PerfDict)
    (shap : Option ShapDict) (fair : Option FairDict)
    (data : Option (List Col × List Col)) (r : GateRun)
    (h : gateMain logF pf perf shap fair data = .ok r) :
    r.exitCode = if r.status = .PASS then 0 else 1 := by
  cases pf with
  | absent =>
    simp only [gateMain, gateMain.gateRun, Except.ok.injEq] at h
    subst h; rfl
  | malformed => simp [gateMain] at h
  | parsed p =>
    simp only [gateMain, gateMain.gateRun, Except.ok.injEq] at h
    subst h; rfl

/-- C9 amended: the gate's process-level exit indicator is 0 when the overall
status is PASS and 1 when it is FAIL; a malformed policy configuration file
is fatal — `main` raises before producing any gate verdict — but the
resulting process exit code is CPython's unhandled-exception status 1, which
coincides with the FAIL gate code instead of being distinct from it. -/
theorem gate_exit_codes (logF : ℚ → PyF) (pf : PolicyFile) (perf : Option PerfDict)
    (shap : Option ShapDict) (fair : Option FairDict)
    (data : Option (List Col × List Col)) :
    (∀ r, gateMain logF pf perf shap fair data = .ok r →
        ((r.exitCode = 0 ↔ r.status = .PASS) ∧ (r.exitCode = 1 ↔ r.status = .FAIL)))
    ∧ (pf = .malformed →
        gateMain logF pf perf shap fair data = .error ()
        ∧ processExit (gateMain logF pf perf shap fair data) = 1) := by
  constructor
  · intro r h
    have he := gateMain_ok_exit logF pf perf shap fair data r h
    cases hs : r.status with
    | PASS => rw [hs] at he; simp [he, hs]
    | FAIL => rw [hs] at he; simp at he; simp [he, hs]
  · intro hm
    subst hm
    exact ⟨rfl, rfl⟩

theorem gate_exit_codes_witness :
    gateMain (fun _ => PyF.nan) .malformed none none none none = .error ()
    ∧ processExit (gateMain (fun _ => PyF.nan) .malformed none none none none) = 1 :=
  (gate_exit_codes (fun _ => PyF.nan) .malformed none none none none).2 rfl

/-- C4: for every pair of samples and every `bins ≥ 1`, `_psi` returns a
finite float; if either sample is empty after filtering out non-finite
values it returns exactly `0.0`; and if the computed statistic is
non-finite it returns `0.0` instead of propagating NaN or infinity. -/
theorem psi_finite_and_guards (logF : ℚ → PyF) (e a : List PyF) (bins : ℕ)
    (_hb : 1 ≤ bins) :
    (_psi logF e a bins).isFinite = true
    ∧ ((toFinite e).length = 0 ∨ (toFinite a).length = 0 → _psi logF e a bins = .fin 0)
    ∧ (¬ ((toFinite e).length = 0 ∨ (toFinite a).length = 0) →
        (psiCore logF (toFinite e) (toFinite a) bins).isFinite = false →
        _psi logF e a bins = .fin 0) := by
  refine ⟨psi_isFinite logF e a bins, ?_, ?_⟩
  · intro h
    unfold _psi
    dsimp only
    rw [if_pos h]
  · intro h hnf
    unfold _psi
    dsimp only
    rw [if_neg h, if_neg (by simp [hnf])]

theorem psi_finite_and_guards_witness :
    1 ≤ 10
    ∧ _psi (fun _ => PyF.nan) [PyF.nan] [] 10 = .fin 0
    ∧ (_psi (fun _ => PyF.nan) [PyF.nan] [] 10).isFinite = true := by
  have h := psi_finite_and_guards (fun _ => PyF.nan) [PyF.nan] [] 10 (by decide)
  exact ⟨by decide, h.2.1 (by decide), h.1⟩

theorem maxQ_some_spec (l : List ℚ) (v : ℚ) (h : l.max? = some v) :
    v ∈ l ∧ ∀ u ∈ l, u ≤ v := by
  refine ⟨List.max?_mem max_choice h, ?_⟩
  exact (List.max?_le_iff (fun _ _ _ => max_le_iff) h).mp le_rfl

/-- C7: `DriftSummary.max_psi` is the maximum over the finitely recorded
per-feature psi values (a non-finite statistic is stored as null and thus
excluded), and is null exactly when no feature recorded a finite psi; and
likewise for `DriftSummary.max_ks`. -/
theorem drift_summary_max_spec (rows : List FRow) :
    (DriftSummary.max_psi rows = none ↔ rows.filterMap FRow.psi = [])
    ∧ (∀ v, DriftSummary.max_psi rows = some v →
        v ∈ rows.filterMap FRow.psi ∧ ∀ u ∈ rows.filterMap FRow.psi, u ≤ v)
    ∧ (DriftSummary.max_ks rows = none ↔ rows.filterMap FRow.ks = [])
    ∧ (∀ v, DriftSummary.max_ks rows = some v →
        v ∈ rows.filterMap FRow.ks ∧ ∀ u ∈ rows.filterMap FRow.ks, u ≤ v) := by
  by_cases hr : rows.isEmpty
  · rw [List.isEmpty_iff] at hr
    subst hr
    refine ⟨by simp [DriftSummary.max_psi], ?_, by simp [DriftSummary.max_ks], ?_⟩
    · intro v hv
      simp [DriftSummary.max_psi] at hv
    · intro v hv
      simp [DriftSummary.max_ks] at hv
  · refine ⟨?_, ?_, ?_, ?_⟩
    · rw [DriftSummary.max_psi, if_neg hr]
      exact List.max?_eq_none_iff
    · intro v hv
      rw [DriftSummary.max_psi, if_neg hr] at hv
      exact maxQ_some_spec _ v hv
    · rw [DriftSummary.max_ks, if_neg hr]
      exact List.max?_eq_none_iff
    · intro v hv
      rw [DriftSummary.max_ks, if_neg hr] at hv
      exact maxQ_some_spec _ v hv

theorem drift_summary_max_spec_witness :
    (1 : ℚ) ∈ [FRow.mk "f".data (some 1) (some (1/2)) true,
                FRow.mk "g".data none none false].filterMap FRow.psi
    ∧ ∀ u ∈ [FRow.mk "f".data (some 1) (some (1/2)) true,
             FRow.mk "g".data none none false].filterMap FRow.psi, u ≤ 1 :=
  (drift_summary_max_spec [FRow.mk "f".data (some 1) (some (1/2)) true,
    FRow.mk "g".data none none false]).2.1 1 (by decide)

/-- C8: every row `compare_dataframes` produces records finite psi and ks
statistics, and its `drift_flag` is true exactly when `psi ≥ 0.10` or
`ks ≥ 0.10` — the fixed per-feature heuristic threshold, distinct from the
policy-level 0.20 fail thresholds. -/
theorem drift_flag_threshold (logF : ℚ → PyF) (baseline current : List Col)
    (ignore_cols : List PyStr) :
    ∀ r ∈ compare_dataframes logF baseline current ignore_cols,
      ∃ p k : ℚ, r.psi = some p ∧ r.ks = some k
        ∧ r.drift_flag = (decide ((1 : ℚ)/10 ≤ p) || decide ((1 : ℚ)/10 ≤ k)) := by
  intro r hr
  rw [compare_dataframes, List.mem_filterMap] at hr
  obtain ⟨nm, _, hf⟩ := hr
  cases hb : baseline.find? (fun d => d.name == nm) with
  | none => rw [hb] at hf; simp at hf
  | some cb =>
    cases hc : current.find? (fun d => d.name == nm) with
    | none => rw [hb, hc] at hf; simp at hf
    | some cc =>
      rw [hb, hc] at hf
      dsimp only at hf
      split at hf
      · simp at hf
      · rename_i hlen
        have hks : ks_2samp (toFinite cb.data) (toFinite cc.data)
            = .fin (ksStat2 (toFinite cb.data) (toFinite cc.data)) := by
          rw [ks_2samp, if_neg hlen]
        have hfin := psi_isFinite logF cb.data cc.data 10
        cases hpsi : _psi logF cb.data cc.data 10 with
        | fin p =>
          rw [hpsi, hks] at hf
          simp only [Option.some.injEq] at hf
          refine ⟨p, ksStat2 (toFinite cb.data) (toFinite cc.data), ?_, ?_, ?_⟩
          · rw [← hf]; rfl
          · rw [← hf]; rfl
          · rw [← hf]; rfl
        | nan => rw [hpsi] at hfin; simp [PyF.isFinite] at hfin
        | inf => rw [hpsi] at hfin; simp [PyF.isFinite] at hfin
        | ninf => rw [hpsi] at hfin; simp [PyF.isFinite] at hfin

unseal Rat.add Rat.mul Rat.inv Rat.sub in
theorem drift_flag_threshold_witness :
    ∃ p k : ℚ,
      (FRow.mk "feat1".data (some 0) (some 0) false).psi = some p
      ∧ (FRow.mk "feat1".data (some 0) (some 0) false).ks = some k
      ∧ (FRow.mk "feat1".data (some 0) (some 0) false).drift_flag
          = (decide ((1 : ℚ)/10 ≤ p) || decide ((1 : ℚ)/10 ≤ k)) :=
  drift_flag_threshold (fun _ => PyF.fin 0)
    [⟨"feat1".data, true, [.fin 0, .fin 1]⟩] [⟨"feat1".data, true, [.fin 0, .fin 1]⟩] []
    (FRow.mk "feat1".data (some 0) (some 0) false) (by decide)

theorem pyInsert_countP (le : α → α → Bool) (p : α → Bool) (x : α) (l : List α) :
    (pyInsert le x l).countP p = l.countP p + (if p x then 1 else 0) := by
  induction l with
  | nil => simp [pyInsert, List.countP_cons]
  | cons y ys ih =>
    rw [pyInsert]
    split
    · simp only [List.countP_cons]
    · simp only [List.countP_cons, ih]
      cases hx : p x <;> cases hy : p y <;> simp [hx, hy]

theorem pySorted_countP (le : α → α → Bool) (p : α → Bool) (l : List α) :
    (pySorted le l).countP p = l.countP p := by
  induction l with
  | nil => rfl
  | cons x xs ih =>
    rw [pySorted, pyInsert_countP, ih, List.countP_cons]

theorem pySorted_length (le : α → α → Bool) (l : List α) :
    (pySorted le l).length = l.length := by
  have h1 := pySorted_countP le (fun _ => true) l
  simpa [List.countP_true] using h1

theorem countP_not_add (p : α → Bool) (l : List α) :
    l.countP (fun a => !p a) + l.countP p = l.length := by
  induction l with
  | nil => rfl
  | cons x xs ih =>
    rw [List.countP_cons, List.countP_cons]
    cases h : p x <;> simp [h] <;> omega

theorem ksSweep_bounds (n1 n0 : ℕ) (h1 : 0 < n1) (h0 : 0 < n0) :
    ∀ (l : List (ℚ × ℤ)) (tp fp : ℕ) (md : ℚ),
      tp + l.countP (fun p => decide (p.2 = 1)) ≤ n1 →
      fp + l.countP (fun p => !decide (p.2 = 1)) ≤ n0 →
      0 ≤ md → md ≤ 1 →
      0 ≤ ksSweep n1 n0 tp fp md l ∧ ksSweep n1 n0 tp fp md l ≤ 1 := by
  intro l
  induction l with
  | nil =>
    intro tp fp md _ _ hm0 hm1
    exact ⟨hm0, hm1⟩
  | cons p rest ih =>
    intro tp fp md htp hfp hm0 hm1
    rw [List.countP_cons] at htp hfp
    rw [ksSweep]
    by_cases hy : p.2 = 1
    · simp only [if_pos hy]
      simp [hy] at htp hfp
      refine ih (tp + 1) fp _ (by omega) (by omega) (le_trans hm0 (le_max_left _ _)) ?_
      refine max_le hm1 ?_
      have ha : ((tp + 1 : ℕ) : ℚ) / (n1 : ℚ) ≤ 1 := by
        rw [div_le_one (by positivity)]
        have h2 : tp + 1 ≤ n1 := by omega
        exact_mod_cast h2
      have hb : (0 : ℚ) ≤ ((tp + 1 : ℕ) : ℚ) / (n1 : ℚ) := by positivity
      have hc : ((fp : ℕ) : ℚ) / (n0 : ℚ) ≤ 1 := by
        rw [div_le_one (by positivity)]
        have h2 : fp ≤ n0 := by omega
        exact_mod_cast h2
      have hd : (0 : ℚ) ≤ ((fp : ℕ) : ℚ) / (n0 : ℚ) := by positivity
      rw [abs_sub_le_iff]
      constructor <;> linarith
    · simp only [if_neg hy]
      simp [hy] at htp hfp
      refine ih tp (fp + 1) _ (by omega) (by omega) (le_trans hm0 (le_max_left _ _)) ?_
      refine max_le hm1 ?_
      have ha : ((tp : ℕ) : ℚ) / (n1 : ℚ) ≤ 1 := by
        rw [div_le_one (by positivity)]
        have h2 : tp ≤ n1 := by omega
        exact_mod_cast h2
      have hb : (0 : ℚ) ≤ ((tp : ℕ) : ℚ) / (n1 : ℚ) := by positivity
      have hc : ((fp + 1 : ℕ) : ℚ) / (n0 : ℚ) ≤ 1 := by
        rw [div_le_one (by positivity)]
        have h2 : fp + 1 ≤ n0 := by omega
        exact_mod_cast h2
      have hd : (0 : ℚ) ≤ ((fp + 1 : ℕ) : ℚ) / (n0 : ℚ) := by positivity
      rw [abs_sub_le_iff]
      constructor <;> linarith

/-- C5: the ROC-sweep two-sample KS statistic returns null exactly when
either class sample ("positive" label 1 versus the rest) is empty after
pairing scores with labels, and whenever both are non-empty it returns a
value v with 0 ≤ v ≤ 1. -/
theorem ks_stat_null_and_bounds (y_true : List ℤ) (y_score : List ℚ) :
    (_ks_stat y_true y_score = none ↔
      (y_score.zip y_true).filter (fun p => decide (p.2 = 1)) = []
      ∨ (y_score.zip y_true).filter (fun p => !decide (p.2 = 1)) = [])
    ∧ (∀ v, _ks_stat y_true y_score = some v → 0 ≤ v ∧ v ≤ 1) := by
  have hcP := pySorted_countP (fun x y : ℚ × ℤ => decide (x.1 ≤ y.1))
    (fun p => decide (p.2 = 1)) (y_score.zip y_true)
  have hcN := pySorted_countP (fun x y : ℚ × ℤ => decide (x.1 ≤ y.1))
    (fun p => !decide (p.2 = 1)) (y_score.zip y_true)
  have hlen := pySorted_length (fun x y : ℚ × ℤ => decide (x.1 ≤ y.1)) (y_score.zip y_true)
  have hnot := countP_not_add (fun p : ℚ × ℤ => decide (p.2 = 1))
    (pySorted (fun x y : ℚ × ℤ => decide (x.1 ≤ y.1)) (y_score.zip y_true))
  have hfP := List.countP_eq_length_filter (fun p : ℚ × ℤ => decide (p.2 = 1)) (y_score.zip y_true)
  have hfN := List.countP_eq_length_filter (fun p : ℚ × ℤ => !decide (p.2 = 1)) (y_score.zip y_true)
  unfold _ks_stat
  dsimp only
  constructor
  · split
    · rename_i hz
      simp only [true_iff]
      left
      rw [hz] at hlen
      rw [← List.length_eq_zero, ← hfP, ← hcP]
      have := @List.countP_le_length (ℚ × ℤ) (fun p => decide (p.2 = 1))
        (pySorted (fun x y : ℚ × ℤ => decide (x.1 ≤ y.1)) (y_score.zip y_true))
      omega
    · split
      · rename_i hz hor
        simp only [true_iff]
        rcases hor with hn1 | hn0
        · left
          rw [← List.length_eq_zero, ← hfP, ← hcP, hn1]
        · right
          rw [← List.length_eq_zero, ← hfN, ← hcN]
          omega
      · rename_i hz hor
        push_neg at hor
        refine iff_of_false (by simp) ?_
        intro hcon
        rcases hcon with hP | hN
        · have : (y_score.zip y_true).countP (fun p => decide (p.2 = 1)) = 0 := by
            rw [hfP, hP]; rfl
          exact hor.1 (by rw [hcP, this])
        · have : (y_score.zip y_true).countP (fun p => !decide (p.2 = 1)) = 0 := by
            rw [hfN, hN]; rfl
          rw [← hcN] at this
          omega
  · intro v hv
    split at hv
    · simp at hv
    · split at hv
      · simp at hv
      · rename_i hz hor
        push_neg at hor
        simp only [Option.some.injEq] at hv
        subst hv
        refine ksSweep_bounds _ _ (by omega) (by omega) _ 0 0 0 (by omega) (by omega) le_rfl
          (by norm_num)

unseal Rat.add Rat.mul Rat.inv Rat.sub in
theorem ks_stat_null_and_bounds_witness :
    0 ≤ (1 : ℚ) ∧ (1 : ℚ) ≤ 1 :=
  (ks_stat_null_and_bounds [1, 0] [9/10, 1/10]).2 1 (by decide)

/-- C6: a column is selected for drift comparison if and only if it is
present in both datasets, not in the case-insensitive ignore set, its name
does not case-insensitively end with `_id` or contain `time` or `date`, and
it is numeric-typed in both datasets; the selected names keep the order of
the baseline dataset's columns. -/
theorem select_cols_declarative (baseline current : List Col) (ignore_cols : List PyStr) :
    selectCols baseline current ignore_cols
      = (baseline.filter (qualifies current ignore_cols)).map Col.name := by
  unfold selectCols
  induction baseline with
  | nil => rfl
  | cons c rest ih =>
    cases hf : current.find? (fun d => d.name == c.name) with
    | none =>
      have hq : qualifies current ignore_cols c = false := by
        unfold qualifies
        rw [hf]
      simp only [selectLoop, hf, Option.isNone_none, if_true, List.filter_cons, hq,
        Bool.false_eq_true, if_false, ih]
    | some d =>
      have hq : qualifies current ignore_cols c
          = (!(looks_like_id_or_time c.name
               || (ignore_cols.map pyLower).contains (pyLower c.name))
             && (c.numeric && d.numeric)) := by
        unfold qualifies
        rw [hf]
        dsimp only [looks_like_id_or_time]
        generalize (ignore_cols.map pyLower).contains (pyLower c.name) = b1
        generalize pyEndsWith (pyLower c.name) "_id".data = b2
        generalize pyContains "time".data (pyLower c.name) = b3
        generalize pyContains "date".data (pyLower c.name) = b4
        generalize c.numeric = b5
        generalize d.numeric = b6
        cases b1 <;> cases b2 <;> cases b3 <;> cases b4 <;> cases b5 <;> cases b6 <;> rfl
      simp only [selectLoop, hf, Option.isNone_some, Bool.false_eq_true, if_false,
        Option.map_some', Option.getD_some, List.filter_cons, hq]
      cases hA : (looks_like_id_or_time c.name
          || (ignore_cols.map pyLower).contains (pyLower c.name)) with
      | true => simp [hA, ih]
      | false =>
        cases hB : (c.numeric && d.numeric) with
        | true => simp [hB, ih]
        | false => simp [hB, ih]

end DriftOps
